import Mathlib

/-!
Verification of the crew-schedule availability/conflict-validation engine.

The repository's frontend (React/TypeScript, under `src/crew-schedule-ui`)
is embedded from its source.  The backend validation engine
(`app/validations.py`, `app/routes.py` of the FastAPI service) is not part
of the sources available here; its data model and rules are modelled from
the specification, as marked on each definition.

Times are natural numbers counting minutes on a single clock (the base
airport's local time); a calendar day is a block of 1440 minutes.
-/

namespace CrewSchedule

/-- Modelled from the spec: crew roles (`Pilot` | `FlightAttendant`) of the
missing backend data model. -/
inductive Role
  | pilot
  | flightAttendant
deriving DecidableEq, Repr

/-- Modelled from the spec: flight direction relative to the base airport
(`departure` from base, `arrival` into base), from the missing backend
data model. -/
inductive Direction
  | departure
  | arrival
deriving DecidableEq, Repr

/-- Modelled from the spec: the Flight record of the missing backend data
model (identifier, flight number, origin/destination, direction,
scheduled departure/arrival timestamps in minutes). -/
structure Flight where
  id : Nat
  flightNumber : String
  origin : String
  destination : String
  direction : Direction
  departureTime : Nat
  arrivalTime : Nat
deriving DecidableEq, Repr

/-- Modelled from the spec: the CrewMember record of the missing backend
data model (identifier, display name, role, on-leave flag). -/
structure CrewMember where
  id : Nat
  name : String
  role : Role
  isOnLeave : Bool
deriving DecidableEq, Repr

/-- Modelled from the spec: the Assignment record of the missing backend
data model; links a crew member to a flight and carries denormalized
snapshot fields (flight number, route, direction, timestamps). -/
structure Assignment where
  crewId : Nat
  flightId : Nat
  flightNumber : String
  origin : String
  destination : String
  direction : Direction
  departureTime : Nat
  arrivalTime : Nat
deriving DecidableEq, Repr

/-- Modelled from the spec: the persisted state visible to the engine —
crew members and flights (read-only here), assignments (read by the
Repository, written by the Committer). -/
structure State where
  crews : List CrewMember
  flights : List Flight
  assignments : List Assignment
deriving DecidableEq, Repr

/-- Modelled from the spec: lookup of a crew member by identifier. -/
def findCrew (st : State) (cid : Nat) : Option CrewMember :=
  st.crews.find? (fun c => c.id == cid)

/-- Modelled from the spec: lookup of a flight by identifier. -/
def findFlight (st : State) (fid : Nat) : Option Flight :=
  st.flights.find? (fun f => f.id == fid)

/-- Minutes in a calendar day. -/
def minutesPerDay : Nat := 1440

/-- Calendar day of a timestamp (base-airport local time). -/
def dateOf (t : Nat) : Nat := t / minutesPerDay

/-- Modelled from the spec: the Schedule Repository operation
`getDaySchedule(crewId, date)` — the crew member's assignments on that
calendar day; empty when none exist. -/
def getDaySchedule (st : State) (cid : Nat) (day : Nat) : List Assignment :=
  st.assignments.filter (fun a => a.crewId == cid && dateOf a.departureTime == day)

/-- Number of assignments of one crew member on one calendar day. -/
def dayCount (st : State) (cid : Nat) (day : Nat) : Nat :=
  (getDaySchedule st cid day).length

/-- Modelled from the spec: minimum rest buffer between flight edges,
3 hours, in minutes. -/
def minBuffer : Nat := 180

/-- Modelled from the spec: the time gap between the adjacent edges of the
candidate flight and an existing assignment — when the flights are
disjoint in time, the distance between the nearer edges; zero when they
overlap. -/
def gapTo (cand : Flight) (a : Assignment) : Nat :=
  if a.arrivalTime ≤ cand.departureTime then cand.departureTime - a.arrivalTime
  else if cand.arrivalTime ≤ a.departureTime then a.departureTime - cand.arrivalTime
  else 0

/-- Modelled from the spec: first existing assignment whose gap to the
candidate is below the minimum buffer (the offending flight reported by
the buffer rule). -/
def firstBufferConflict (cand : Flight) (sched : List Assignment) : Option Assignment :=
  sched.find? (fun a => gapTo cand a < minBuffer)

/-- Modelled from the spec: informational buffer summary — the smallest
observed gap to the flights of the day schedule. -/
def minGapInfo (cand : Flight) (sched : List Assignment) : Option Nat :=
  (sched.map (gapTo cand)).foldr
    (fun g acc => match acc with
      | none => some g
      | some m => some (min g m)) none

/-- Modelled from the spec: duplicate check — is the candidate flight
already present in the day schedule? -/
def hasDuplicate (cand : Flight) (sched : List Assignment) : Bool :=
  sched.any (fun a => a.flightId == cand.id)

/-- Modelled from the spec: the per-flight crew cap of each role —
2 for Pilot, 4 for FlightAttendant. -/
def roleCap : Role → Nat
  | .pilot => 2
  | .flightAttendant => 4

/-- Role of a crew member looked up by identifier. -/
def roleOf (st : State) (cid : Nat) : Option Role :=
  (findCrew st cid).map (fun c => c.role)

/-- Modelled from the spec: count of crew of a given role already assigned
to a given flight, across all crew members. -/
def sameRoleCount (st : State) (fid : Nat) (r : Role) : Nat :=
  (st.assignments.filter
    (fun a => a.flightId == fid && roleOf st a.crewId == some r)).length

/-- Modelled from the spec: sequence check for a second flight of the day —
the existing flight and the candidate, ordered by departure time, must be
one departure from base followed by one arrival into base. -/
def sequenceOk (cand : Flight) (ex : Assignment) : Bool :=
  if ex.departureTime ≤ cand.departureTime then
    ex.direction == .departure && cand.direction == .arrival
  else
    cand.direction == .departure && ex.direction == .arrival

/-- Modelled from the spec: route continuity — the arrival (later) flight's
origin airport must equal the departure (earlier) flight's destination
airport. -/
def continuityOk (cand : Flight) (ex : Assignment) : Bool :=
  if ex.departureTime ≤ cand.departureTime then
    cand.origin == ex.destination
  else
    ex.origin == cand.destination

/-- Modelled from the spec: machine-checkable reason codes of the six rule
failures. -/
inductive Reason
  | alreadyAssigned
  | dailyLimit
  | insufficientBuffer (flightNumber : String)
  | invalidSequence
  | routeMismatch
  | crewLimit
deriving DecidableEq, Repr

/-- Modelled from the spec: the display message carried by each reason. -/
def reasonMessage : Reason → String
  | .alreadyAssigned => "already assigned to this flight"
  | .dailyLimit => "daily flight limit reached"
  | .insufficientBuffer _ => "insufficient buffer time"
  | .invalidSequence => "invalid departure/arrival sequence"
  | .routeMismatch => "origin/destination mismatch between outbound and return"
  | .crewLimit => "crew limit reached for this flight and role"

/-- Modelled from the spec: the result of the Conflict Rule Set —
PASS with the informational buffer summary, or FAIL with a reason. -/
inductive RuleResult
  | pass (bufferInfo : Option Nat)
  | fail (r : Reason)
deriving DecidableEq, Repr

/-- Modelled from the spec: crew-size limit per flight — the count of crew
of the candidate's role on the candidate flight must be below the role's
cap; this is the last rule, so on pass it reports the buffer summary. -/
def crewSizeCheck (st : State) (cand : Flight) (r : Role)
    (sched : List Assignment) : RuleResult :=
  if roleCap r ≤ sameRoleCount st cand.id r then .fail .crewLimit
  else .pass (minGapInfo cand sched)

/-- Modelled from the spec: the Conflict Rule Set evaluated in its fixed
order — duplicate, daily cap, buffer, sequence (only when a second flight
of the day is being added), route continuity, crew-size limit; the first
failure wins. -/
def evalRules (st : State) (cand : Flight) (r : Role)
    (sched : List Assignment) : RuleResult :=
  if hasDuplicate cand sched then .fail .alreadyAssigned
  else if sched.length = 2 then .fail .dailyLimit
  else
    match firstBufferConflict cand sched with
    | some a => .fail (.insufficientBuffer a.flightNumber)
    | none =>
      match sched with
      | [ex] =>
        if sequenceOk cand ex then
          if continuityOk cand ex then crewSizeCheck st cand r sched
          else .fail .routeMismatch
        else .fail .invalidSequence
      | _ => crewSizeCheck st cand r sched

/-- Modelled from the spec: the structured decision of the Availability
Evaluator — a distinct not-found outcome, a distinct on-leave outcome, or
the rule set's PASS/FAIL. -/
inductive Decision
  | notFound
  | onLeave
  | fail (r : Reason)
  | pass (bufferInfo : Option Nat)
deriving DecidableEq, Repr

/-- Modelled from the spec: the Availability Evaluator
`evaluate(crewId, flightId)` — fetches the crew member and flight, fails
fast on missing records or an on-leave crew member, pulls the day schedule
for the candidate flight's date, and runs the Conflict Rule Set in order. -/
def evaluate (st : State) (cid : Nat) (fid : Nat) : Decision :=
  match findCrew st cid with
  | none => .notFound
  | some crew =>
    match findFlight st fid with
    | none => .notFound
    | some fl =>
      if crew.isOnLeave then .onLeave
      else
        match evalRules st fl crew.role (getDaySchedule st cid (dateOf fl.departureTime)) with
        | .fail r => .fail r
        | .pass b => .pass b

/-- Modelled from the spec: the snapshot Assignment persisted by the
Committer, denormalizing the flight's current route and time data. -/
def snapshot (cid : Nat) (fl : Flight) : Assignment :=
  { crewId := cid
    flightId := fl.id
    flightNumber := fl.flightNumber
    origin := fl.origin
    destination := fl.destination
    direction := fl.direction
    departureTime := fl.departureTime
    arrivalTime := fl.arrivalTime }

/-- Modelled from the spec: outcome of the Assignment Committer — the
persisted Assignment, or a rejection carrying the evaluator's decision. -/
inductive CommitResult
  | committed (a : Assignment)
  | rejected (d : Decision)
deriving DecidableEq, Repr

/-- Modelled from the spec: the Assignment Committer
`commit(crewId, flightId)` — re-runs the Availability Evaluator
immediately before writing, rejects (leaving the state unchanged) if the
re-check fails, and on pass persists exactly one snapshot Assignment. -/
def commit (st : State) (cid : Nat) (fid : Nat) : CommitResult × State :=
  match findFlight st fid with
  | none => (.rejected .notFound, st)
  | some fl =>
    match evaluate st cid fid with
    | .pass _ =>
      let a := snapshot cid fl
      (.committed a, { st with assignments := st.assignments ++ [a] })
    | d => (.rejected d, st)

/-- A sequence of commit attempts, applied left to right. -/
def runCommits (st : State) : List (Nat × Nat) → State
  | [] => st
  | (cid, fid) :: rest => runCommits (commit st cid fid).2 rest

/-- Modelled from the spec: the read-only boundary operation
`checkAvailability(crewId, flightId)` — surfaces the evaluator's decision
and performs no state mutation. -/
def checkAvailability (st : State) (cid : Nat) (fid : Nat) : Decision × State :=
  (evaluate st cid fid, st)

/-- Repeated availability checks with no intervening commit, collecting
the decisions and threading the state. -/
def repeatCheck (st : State) (cid : Nat) (fid : Nat) : Nat → List Decision × State
  | 0 => ([], st)
  | n + 1 =>
    let p := checkAvailability st cid fid
    let q := repeatCheck p.2 cid fid n
    (p.1 :: q.1, q.2)

/-- The daily-cap invariant: no crew member has more than 2 assignments on
any single calendar day. -/
def DailyCapInv (st : State) : Prop := ∀ cid day, dayCount st cid day ≤ 2

/-- The per-flight crew-size invariant: per flight, at most 2 crew of role
Pilot and at most 4 of role FlightAttendant are assigned. -/
def RoleCapInv (st : State) : Prop := ∀ fid r, sameRoleCount st fid r ≤ roleCap r

/-- The pair-uniqueness invariant: at most one assignment per
(crew, flight) pair. -/
def PairInv (st : State) : Prop :=
  ∀ c f, (st.assignments.filter (fun a => a.crewId == c && a.flightId == f)).length ≤ 1

/-- Every stored assignment is the snapshot of the current flight record it
references. -/
def SnapInv (st : State) : Prop :=
  ∀ a ∈ st.assignments, ∃ fl, findFlight st a.flightId = some fl ∧ a = snapshot a.crewId fl

/-!
### Frontend embedding (from `src/crew-schedule-ui`)

These definitions are translated from the TypeScript sources present in
the repository: the type declarations of `types/index.ts`, the crew forms
of `CrewManager.tsx`, and the fetch wrappers of `services/apiService.ts`.
-/

/-- From src `types/index.ts`: the string literal values of the CrewMember
role union type. -/
def crewRoleValues : List String := ["Pilot", "Flight attendant"]

/-- A string is a valid CrewMember role value of the frontend data model. -/
def isValidCrewRole (s : String) : Bool := crewRoleValues.contains s

/-- From src `CrewManager.tsx`: the role option values offered by the crew
creation and edit selects. -/
def crewFormRoleOptions : List String := ["Pilot", "Flight attendant"]

/-- Stored string value of each engine role. -/
def roleValue : Role → String
  | .pilot => "Pilot"
  | .flightAttendant => "Flight attendant"

/-- JSON values as parsed by `response.json()` in the frontend. -/
inductive Json
  | jnull
  | jbool (b : Bool)
  | jnum (n : Int)
  | jstr (s : String)
  | jarr (elems : List Json)
  | jobj (fields : List (String × Json))

/-- From src `apiService.ts`: the response surface consumed by
`handleResponse` — ok flag, HTTP status and the parsed JSON body (`none`
when `json()` rejects). -/
structure ApiResponse where
  ok : Bool
  status : Nat
  body : Option Json

/-- The `detail` field of an error body, when present as a string. -/
def lookupDetail : Json → Option String
  | .jobj fields =>
    match fields.find? (fun p => p.1 == "detail") with
    | some (_, .jstr s) => some s
    | _ => none
  | _ => none

/-- From src `apiService.ts` `handleResponse`: a non-ok response throws the
error body's truthy `detail` or `HTTP <status>` (with a Network-error
fallback when the error body fails to parse); an ok response returns the
parsed JSON (a rejected `json()` propagates). -/
def handleResponse (r : ApiResponse) : Except String Json :=
  if r.ok then
    match r.body with
    | some j => .ok j
    | none => .error "Unexpected end of JSON input"
  else
    let errBody := match r.body with
      | some j => j
      | none => Json.jobj [("detail", .jstr "Network error")]
    match lookupDetail errBody with
    | some s => if s.isEmpty then .error ("HTTP " ++ toString r.status) else .error s
    | none => .error ("HTTP " ++ toString r.status)

/-- Is the parsed JSON value an array? (`Array.isArray`). -/
def isArray : Json → Bool
  | .jarr _ => true
  | _ => false

/-- Elements of a JSON array (only used under `isArray`). -/
def arrayElems : Json → List Json
  | .jarr xs => xs
  | _ => []

/-- From src `apiService.ts` `getCrewMembers`: fetch `/crew`, run
`handleResponse`, then return `Array.isArray(data) ? data : []`. -/
def getCrewMembers (r : ApiResponse) : Except String (List Json) :=
  match handleResponse r with
  | .error e => .error e
  | .ok data => .ok (if isArray data then arrayElems data else [])

/-- From src `apiService.ts` `getFlights`: fetch `/flights`, run
`handleResponse`, then return `Array.isArray(data) ? data : []`. -/
def getFlights (r : ApiResponse) : Except String (List Json) :=
  match handleResponse r with
  | .error e => .error e
  | .ok data => .ok (if isArray data then arrayElems data else [])

/-- From src `apiService.ts` `getSchedules`: fetch `/schedules`, run
`handleResponse`, then return `Array.isArray(data) ? data : []`. -/
def getSchedules (r : ApiResponse) : Except String (List Json) :=
  match handleResponse r with
  | .error e => .error e
  | .ok data => .ok (if isArray data then arrayElems data else [])

/-!
### Concrete scenario data

Crew members, flights and states used to instantiate the theorems on the
spec's concrete scenarios (times in minutes within day 0: 540 = 09:00,
660 = 11:00, 900 = 15:00).
-/

def wCrewPilot : CrewMember := { id := 1, name := "P1", role := .pilot, isOnLeave := false }

def wCrewPilot2 : CrewMember := { id := 2, name := "P2", role := .pilot, isOnLeave := false }

def wCrewPilot3 : CrewMember := { id := 3, name := "P3", role := .pilot, isOnLeave := false }

def wCrewAttendant : CrewMember :=
  { id := 4, name := "A1", role := .flightAttendant, isOnLeave := false }

def wFlightOut : Flight :=
  { id := 10, flightNumber := "F1", origin := "LTN", destination := "AMS",
    direction := .departure, departureTime := 540, arrivalTime := 660 }

def wFlightRet : Flight :=
  { id := 11, flightNumber := "F2", origin := "AMS", destination := "LTN",
    direction := .arrival, departureTime := 900, arrivalTime := 1020 }

def wFlightThird : Flight :=
  { id := 12, flightNumber := "F3", origin := "LTN", destination := "CDG",
    direction := .departure, departureTime := 1320, arrivalTime := 1400 }

def wFlightRetY : Flight :=
  { id := 13, flightNumber := "F2y", origin := "BCN", destination := "LTN",
    direction := .arrival, departureTime := 900, arrivalTime := 1020 }

def wFlightShort : Flight :=
  { id := 14, flightNumber := "F1s", origin := "LTN", destination := "AMS",
    direction := .departure, departureTime := 540, arrivalTime := 600 }

def wFlightEleven : Flight :=
  { id := 15, flightNumber := "F2e", origin := "AMS", destination := "LTN",
    direction := .arrival, departureTime := 660, arrivalTime := 780 }

def wStateEmpty : State :=
  { crews := [wCrewPilot], flights := [wFlightOut, wFlightRet], assignments := [] }

def wStateFull : State :=
  { crews := [wCrewPilot], flights := [wFlightOut, wFlightRet, wFlightThird],
    assignments := [snapshot 1 wFlightOut, snapshot 1 wFlightRet] }

def wStateBuffer : State :=
  { crews := [wCrewPilot], flights := [wFlightShort, wFlightEleven],
    assignments := [snapshot 1 wFlightShort] }

def wStateSeq : State :=
  { crews := [wCrewPilot], flights := [wFlightOut, wFlightThird],
    assignments := [snapshot 1 wFlightOut] }

def wStateB : State :=
  { crews := [wCrewPilot], flights := [wFlightOut, wFlightRet],
    assignments := [snapshot 1 wFlightOut] }

def wStateC : State :=
  { crews := [wCrewPilot], flights := [wFlightOut, wFlightRetY],
    assignments := [snapshot 1 wFlightOut] }

def wFlightOutCdg : Flight :=
  { id := 16, flightNumber := "F1c", origin := "LTN", destination := "CDG",
    direction := .departure, departureTime := 540, arrivalTime := 660 }

def wStateB2 : State :=
  { crews := [wCrewPilot], flights := [wFlightOut, wFlightRet],
    assignments := [snapshot 1 wFlightRet] }

def wStateC2 : State :=
  { crews := [wCrewPilot], flights := [wFlightOutCdg, wFlightRet],
    assignments := [snapshot 1 wFlightRet] }

def wStateE : State :=
  { crews := [wCrewPilot, wCrewPilot2, wCrewPilot3, wCrewAttendant],
    flights := [wFlightOut],
    assignments := [snapshot 1 wFlightOut, snapshot 2 wFlightOut] }

def wStateOne : State :=
  { crews := [wCrewPilot], flights := [wFlightOut], assignments := [] }

def wStateOneDone : State :=
  { crews := [wCrewPilot], flights := [wFlightOut],
    assignments := [snapshot 1 wFlightOut] }

def wResponseObj : ApiResponse :=
  { ok := true, status := 200,
    body := some (.jobj [("message", .jstr "No crew found")]) }

def wResponseNull : ApiResponse :=
  { ok := true, status := 200, body := some .jnull }

/-! ### Basic lemmas about lookups and the evaluator -/

theorem findFlight_id {st : State} {fid : Nat} {fl : Flight}
    (h : findFlight st fid = some fl) : fl.id = fid := by
  simpa using List.find?_some h

theorem findCrew_id {st : State} {cid : Nat} {crew : CrewMember}
    (h : findCrew st cid = some crew) : crew.id = cid := by
  simpa using List.find?_some h

theorem evaluate_flight_none {st : State} {cid fid : Nat}
    (h : findFlight st fid = none) : evaluate st cid fid = .notFound := by
  unfold evaluate
  cases hc : findCrew st cid with
  | none => rfl
  | some crew => rw [h]

theorem evaluate_eq_lift {st : State} {cid fid : Nat} {crew : CrewMember} {fl : Flight}
    (hc : findCrew st cid = some crew) (hl : crew.isOnLeave = false)
    (hf : findFlight st fid = some fl) :
    evaluate st cid fid =
      (match evalRules st fl crew.role (getDaySchedule st cid (dateOf fl.departureTime)) with
        | .fail r => Decision.fail r
        | .pass b => Decision.pass b) := by
  unfold evaluate
  rw [hc, hf]
  simp [hl]

/-! ### Forward computation lemmas for the rule chain -/

theorem evalRules_duplicate {st : State} {cand : Flight} {r : Role} {sched : List Assignment}
    (h : hasDuplicate cand sched = true) :
    evalRules st cand r sched = .fail .alreadyAssigned := by
  simp [evalRules, h]

theorem evalRules_dailyLimit {st : State} {cand : Flight} {r : Role} {sched : List Assignment}
    (h0 : hasDuplicate cand sched = false) (h1 : sched.length = 2) :
    evalRules st cand r sched = .fail .dailyLimit := by
  simp [evalRules, h0, h1]

theorem evalRules_buffer {st : State} {cand : Flight} {r : Role} {sched : List Assignment}
    {a : Assignment}
    (h0 : hasDuplicate cand sched = false) (h1 : sched.length ≠ 2)
    (h2 : firstBufferConflict cand sched = some a) :
    evalRules st cand r sched = .fail (.insufficientBuffer a.flightNumber) := by
  simp [evalRules, h0, h1, h2]

theorem evalRules_invalidSeq {st : State} {cand : Flight} {r : Role} {ex : Assignment}
    (h0 : hasDuplicate cand [ex] = false)
    (h2 : firstBufferConflict cand [ex] = none)
    (h3 : sequenceOk cand ex = false) :
    evalRules st cand r [ex] = .fail .invalidSequence := by
  simp [evalRules, h0, h2, h3]

theorem evalRules_routeMismatch {st : State} {cand : Flight} {r : Role} {ex : Assignment}
    (h0 : hasDuplicate cand [ex] = false)
    (h2 : firstBufferConflict cand [ex] = none)
    (h3 : sequenceOk cand ex = true) (h4 : continuityOk cand ex = false) :
    evalRules st cand r [ex] = .fail .routeMismatch := by
  simp [evalRules, h0, h2, h3, h4]

theorem evalRules_crewLimit_single {st : State} {cand : Flight} {r : Role} {ex : Assignment}
    (h0 : hasDuplicate cand [ex] = false)
    (h2 : firstBufferConflict cand [ex] = none)
    (h3 : sequenceOk cand ex = true) (h4 : continuityOk cand ex = true)
    (h5 : roleCap r ≤ sameRoleCount st cand.id r) :
    evalRules st cand r [ex] = .fail .crewLimit := by
  simp [evalRules, crewSizeCheck, h0, h2, h3, h4, h5]

theorem evalRules_pass_single {st : State} {cand : Flight} {r : Role} {ex : Assignment}
    (h0 : hasDuplicate cand [ex] = false)
    (h2 : firstBufferConflict cand [ex] = none)
    (h3 : sequenceOk cand ex = true) (h4 : continuityOk cand ex = true)
    (h5 : sameRoleCount st cand.id r < roleCap r) :
    evalRules st cand r [ex] = .pass (minGapInfo cand [ex]) := by
  simp [evalRules, crewSizeCheck, h0, h2, h3, h4, Nat.not_le.mpr h5]

theorem evalRules_empty_crewLimit {st : State} {cand : Flight} {r : Role}
    (h5 : roleCap r ≤ sameRoleCount st cand.id r) :
    evalRules st cand r [] = .fail .crewLimit := by
  simp [evalRules, hasDuplicate, firstBufferConflict, crewSizeCheck, h5]

theorem evalRules_empty_pass {st : State} {cand : Flight} {r : Role}
    (h5 : sameRoleCount st cand.id r < roleCap r) :
    evalRules st cand r [] = .pass none := by
  simp [evalRules, hasDuplicate, firstBufferConflict, crewSizeCheck, minGapInfo,
    Nat.not_le.mpr h5]

/-! ### Backward facts extracted from a passing evaluation -/

theorem evalRules_pass_facts {st : State} {cand : Flight} {r : Role} {sched : List Assignment}
    {b : Option Nat} (h : evalRules st cand r sched = .pass b) :
    hasDuplicate cand sched = false ∧ sched.length ≠ 2 ∧
      sameRoleCount st cand.id r < roleCap r := by
  unfold evalRules at h
  split at h
  · simp at h
  · next hdup =>
    split at h
    · simp at h
    · next hlen =>
      split at h
      · simp at h
      · split at h
        · split at h
          · split at h
            · unfold crewSizeCheck at h
              split at h
              · simp at h
              · next hcap =>
                exact ⟨by simpa using hdup, hlen, Nat.lt_of_not_le hcap⟩
            · simp at h
          · simp at h
        · unfold crewSizeCheck at h
          split at h
          · simp at h
          · next hcap =>
            exact ⟨by simpa using hdup, hlen, Nat.lt_of_not_le hcap⟩

theorem evaluate_pass_facts {st : State} {cid fid : Nat} {b : Option Nat}
    (h : evaluate st cid fid = .pass b) :
    ∃ crew fl, findCrew st cid = some crew ∧ crew.isOnLeave = false ∧
      findFlight st fid = some fl ∧
      evalRules st fl crew.role (getDaySchedule st cid (dateOf fl.departureTime)) = .pass b := by
  unfold evaluate at h
  split at h
  · simp at h
  · next crew hcrew =>
    split at h
    · simp at h
    · next fl hfl =>
      split at h
      · simp at h
      · next hleave =>
        split at h
        · simp at h
        · next b' hrule =>
          refine ⟨crew, fl, hcrew, by simpa using hleave, hfl, ?_⟩
          rw [hrule]
          simpa using h

/-! ### Lemmas about the committer -/

theorem commit_of_not_pass {st : State} {cid fid : Nat} {d : Decision}
    (h : evaluate st cid fid = d) (hnp : ∀ b, d ≠ Decision.pass b) :
    commit st cid fid = (.rejected d, st) := by
  unfold commit
  cases hf : findFlight st fid with
  | none =>
    have hd : d = .notFound := by rw [← h, evaluate_flight_none hf]
    rw [hd]
  | some fl =>
    rw [h]
    cases d with
    | pass b => exact absurd rfl (hnp b)
    | notFound => rfl
    | onLeave => rfl
    | fail r => rfl

theorem commit_of_pass {st : State} {cid fid : Nat} {b : Option Nat}
    (h : evaluate st cid fid = .pass b) :
    ∃ fl, findFlight st fid = some fl ∧
      commit st cid fid =
        (.committed (snapshot cid fl),
         { st with assignments := st.assignments ++ [snapshot cid fl] }) := by
  obtain ⟨crew, fl, _, _, hf, _⟩ := evaluate_pass_facts h
  refine ⟨fl, hf, ?_⟩
  unfold commit
  rw [hf, h]

theorem commit_cases (st : State) (cid fid : Nat) :
    (commit st cid fid).2 = st ∨
      ∃ fl b, findFlight st fid = some fl ∧ evaluate st cid fid = .pass b ∧
        (commit st cid fid).2 =
          { st with assignments := st.assignments ++ [snapshot cid fl] } := by
  cases he : evaluate st cid fid with
  | pass b =>
    obtain ⟨fl, hf, hc⟩ := commit_of_pass he
    exact Or.inr ⟨fl, b, hf, rfl, by rw [hc]⟩
  | notFound => exact Or.inl (by rw [commit_of_not_pass he (by intro b; simp)])
  | onLeave => exact Or.inl (by rw [commit_of_not_pass he (by intro b; simp)])
  | fail r => exact Or.inl (by rw [commit_of_not_pass he (by intro b; simp)])

/-! ### Effect of appending one assignment on the derived views -/

theorem getDaySchedule_append (st : State) (a : Assignment) (cid day : Nat) :
    getDaySchedule { st with assignments := st.assignments ++ [a] } cid day
      = getDaySchedule st cid day ++
        (if a.crewId == cid && dateOf a.departureTime == day then [a] else []) := by
  simp only [getDaySchedule, List.filter_append]
  congr 1
  cases hb : (a.crewId == cid && dateOf a.departureTime == day) with
  | false => simp [List.filter, hb]
  | true => simp [List.filter, hb]

theorem roleOf_set_assignments (st : State) (l : List Assignment) (cid : Nat) :
    roleOf { st with assignments := l } cid = roleOf st cid := rfl

theorem sameRoleCount_append (st : State) (a : Assignment) (fid : Nat) (r : Role) :
    sameRoleCount { st with assignments := st.assignments ++ [a] } fid r
      = sameRoleCount st fid r +
        (if a.flightId == fid && roleOf st a.crewId == some r then 1 else 0) := by
  simp only [sameRoleCount, roleOf_set_assignments, List.filter_append, List.length_append]
  congr 1
  cases hb : (a.flightId == fid && roleOf st a.crewId == some r) with
  | false => simp [List.filter, hb]
  | true => simp [List.filter, hb]

/-! ### Invariants preserved by sequences of commits -/

theorem runCommits_preserves {P : State → Prop}
    (hstep : ∀ st cid fid, P st → P (commit st cid fid).2)
    (cmds : List (Nat × Nat)) : ∀ st : State, P st → P (runCommits st cmds) := by
  induction cmds with
  | nil => intro st h; exact h
  | cons p rest ih =>
    intro st h
    cases p with
    | mk c f => exact ih _ (hstep st c f h)

theorem commit_preserves_dailyCap {st : State} (h : DailyCapInv st) (cid fid : Nat) :
    DailyCapInv (commit st cid fid).2 := by
  rcases commit_cases st cid fid with hst | ⟨fl, b, hf, he, hst⟩
  · intro c d; rw [hst]; exact h c d
  · intro c d
    rw [hst]
    obtain ⟨crew, fl', hcrew, _, hf', hr⟩ := evaluate_pass_facts he
    have hfl : fl = fl' := by rw [hf] at hf'; exact Option.some.inj hf'
    subst hfl
    obtain ⟨_, hlen, _⟩ := evalRules_pass_facts hr
    unfold dayCount
    rw [getDaySchedule_append, List.length_append]
    by_cases hm : ((snapshot cid fl).crewId == c && dateOf (snapshot cid fl).departureTime == d) = true
    · rw [if_pos hm]
      simp only [snapshot, Bool.and_eq_true, beq_iff_eq] at hm
      obtain ⟨hm1, hm2⟩ := hm
      have hle : (getDaySchedule st cid (dateOf fl.departureTime)).length ≤ 2 := h cid _
      rw [← hm1, ← hm2]
      simp only [List.length_singleton]
      omega
    · rw [if_neg hm]
      simpa using h c d

theorem commit_preserves_roleCap {st : State} (h : RoleCapInv st) (cid fid : Nat) :
    RoleCapInv (commit st cid fid).2 := by
  rcases commit_cases st cid fid with hst | ⟨fl, b, hf, he, hst⟩
  · intro f r; rw [hst]; exact h f r
  · intro f r
    rw [hst, sameRoleCount_append]
    obtain ⟨crew, fl', hcrew, _, hf', hr⟩ := evaluate_pass_facts he
    have hfl : fl = fl' := by rw [hf] at hf'; exact Option.some.inj hf'
    subst hfl
    obtain ⟨_, _, hcap⟩ := evalRules_pass_facts hr
    by_cases hm : ((snapshot cid fl).flightId == f && roleOf st (snapshot cid fl).crewId == some r) = true
    · rw [if_pos hm]
      simp only [snapshot, Bool.and_eq_true, beq_iff_eq] at hm
      obtain ⟨hm1, hm2⟩ := hm
      have hrole : roleOf st cid = some crew.role := by simp [roleOf, hcrew]
      rw [hrole] at hm2
      have hr2 : r = crew.role := (Option.some.inj hm2).symm
      subst hr2
      rw [← hm1]
      omega
    · rw [if_neg hm]
      simpa using h f r

/-! ### Snapshot and pair-uniqueness invariants -/

theorem findFlight_set_assignments (st : State) (l : List Assignment) (fid : Nat) :
    findFlight { st with assignments := l } fid = findFlight st fid := rfl

theorem findCrew_set_assignments (st : State) (l : List Assignment) (cid : Nat) :
    findCrew { st with assignments := l } cid = findCrew st cid := rfl

theorem commit_preserves_snap {st : State} (h : SnapInv st) (cid fid : Nat) :
    SnapInv (commit st cid fid).2 := by
  rcases commit_cases st cid fid with hst | ⟨fl, b, hf, he, hst⟩
  · rw [hst]; exact h
  · rw [hst]
    intro a ha
    simp only [List.mem_append, List.mem_singleton] at ha
    rcases ha with ha | rfl
    · obtain ⟨flb, h1, h2⟩ := h a ha
      exact ⟨flb, h1, h2⟩
    · refine ⟨fl, ?_, rfl⟩
      show findFlight st fl.id = some fl
      rw [findFlight_id hf]
      exact hf

theorem commit_preserves_pair {st : State} (hp : PairInv st) (hs : SnapInv st)
    (cid fid : Nat) : PairInv (commit st cid fid).2 := by
  rcases commit_cases st cid fid with hst | ⟨fl, b, hf, he, hst⟩
  · rw [hst]; exact hp
  · intro c f
    rw [hst]
    simp only [List.filter_append, List.length_append]
    obtain ⟨crew, fl', hcrew, hleave, hf', hr⟩ := evaluate_pass_facts he
    have hfl : fl = fl' := by rw [hf] at hf'; exact Option.some.inj hf'
    subst hfl
    obtain ⟨hdup, _, _⟩ := evalRules_pass_facts hr
    by_cases hm : ((snapshot cid fl).crewId == c && (snapshot cid fl).flightId == f) = true
    · simp only [snapshot, Bool.and_eq_true, beq_iff_eq] at hm
      obtain ⟨hc1, hc2⟩ := hm
      have hempty : st.assignments.filter (fun a => a.crewId == c && a.flightId == f) = [] := by
        rw [List.filter_eq_nil_iff]
        intro a ha hcontra
        simp only [Bool.and_eq_true, beq_iff_eq] at hcontra
        obtain ⟨ha1, ha2⟩ := hcontra
        obtain ⟨flb, hb1, hb2⟩ := hs a ha
        have hff : findFlight st a.flightId = some fl := by
          rw [ha2, ← hc2, findFlight_id hf]
          exact hf
        have hbfl : flb = fl := Option.some.inj (hb1.symm.trans hff)
        subst hbfl
        have hdep : a.departureTime = flb.departureTime := by rw [hb2]; rfl
        have hmem : a ∈ getDaySchedule st cid (dateOf flb.departureTime) := by
          rw [getDaySchedule, List.mem_filter]
          refine ⟨ha, ?_⟩
          simp [ha1, ← hc1, hdep]
        have hcontr : hasDuplicate flb (getDaySchedule st cid (dateOf flb.departureTime)) = true := by
          rw [hasDuplicate, List.any_eq_true]
          exact ⟨a, hmem, by simp [ha2, ← hc2]⟩
        rw [hdup] at hcontr
        exact absurd hcontr (by simp)
      rw [hempty]
      simp [List.filter, snapshot, hc1, hc2]
    · have hm' : ((snapshot cid fl).crewId == c && (snapshot cid fl).flightId == f) = false := by
        simpa using hm
      have : List.filter (fun a => a.crewId == c && a.flightId == f) [snapshot cid fl] = [] := by
        simp [List.filter, hm']
      rw [this]
      simpa using hp c f

/-! ### Re-running the evaluator after a successful commit -/

theorem commit_committed_inv {st : State} {cid fid : Nat} {a : Assignment} {st' : State}
    (h : commit st cid fid = (.committed a, st')) :
    ∃ fl b, findFlight st fid = some fl ∧ evaluate st cid fid = .pass b ∧
      a = snapshot cid fl ∧
      st' = { st with assignments := st.assignments ++ [snapshot cid fl] } := by
  cases he : evaluate st cid fid with
  | pass b =>
    obtain ⟨fl, hf, hc⟩ := commit_of_pass he
    rw [hc] at h
    simp only [Prod.mk.injEq] at h
    obtain ⟨h1, h2⟩ := h
    exact ⟨fl, b, hf, rfl, (CommitResult.committed.inj h1).symm, h2.symm⟩
  | notFound =>
    rw [commit_of_not_pass he (by intro b; simp)] at h
    simp at h
  | onLeave =>
    rw [commit_of_not_pass he (by intro b; simp)] at h
    simp at h
  | fail r =>
    rw [commit_of_not_pass he (by intro b; simp)] at h
    simp at h

theorem evalRules_not_dup {st : State} {cand : Flight} {r : Role} {sched : List Assignment}
    (h : hasDuplicate cand sched = false) :
    evalRules st cand r sched ≠ .fail .alreadyAssigned := by
  unfold evalRules
  rw [if_neg (by simp [h])]
  split
  · simp
  · split
    · simp
    · split
      · split
        · split
          · unfold crewSizeCheck
            split <;> simp
          · simp
        · simp
      · unfold crewSizeCheck
        split <;> simp

theorem commit_then_duplicate {st : State} {cid fid : Nat} {a : Assignment} {st' : State}
    (h : commit st cid fid = (.committed a, st')) :
    evaluate st' cid fid = .fail .alreadyAssigned ∧
      commit st' cid fid = (.rejected (.fail .alreadyAssigned), st') := by
  obtain ⟨fl, b, hf, he, ha, hst⟩ := commit_committed_inv h
  obtain ⟨crew, fl', hcrew, hleave, hf', hr⟩ := evaluate_pass_facts he
  have hfl : fl = fl' := by rw [hf] at hf'; exact Option.some.inj hf'
  subst hfl
  subst hst
  have hcrew' : findCrew { st with assignments := st.assignments ++ [snapshot cid fl] } cid = some crew := hcrew
  have hf'' : findFlight { st with assignments := st.assignments ++ [snapshot cid fl] } fid = some fl := hf
  have hsched : getDaySchedule { st with assignments := st.assignments ++ [snapshot cid fl] } cid (dateOf fl.departureTime)
      = getDaySchedule st cid (dateOf fl.departureTime) ++ [snapshot cid fl] := by
    rw [getDaySchedule_append]
    simp [snapshot]
  have hdup' : hasDuplicate fl (getDaySchedule st cid (dateOf fl.departureTime) ++ [snapshot cid fl]) = true := by
    rw [hasDuplicate, List.any_eq_true]
    exact ⟨snapshot cid fl, by simp, by simp [snapshot]⟩
  have heval : evaluate { st with assignments := st.assignments ++ [snapshot cid fl] } cid fid = .fail .alreadyAssigned := by
    rw [evaluate_eq_lift hcrew' hleave hf'', hsched, evalRules_duplicate hdup']
  exact ⟨heval, commit_of_not_pass heval (by intro b'; simp)⟩

theorem evaluate_dup_iff {st : State} {cid fid : Nat} {crew : CrewMember} {fl : Flight}
    (hc : findCrew st cid = some crew) (hl : crew.isOnLeave = false)
    (hf : findFlight st fid = some fl) :
    evaluate st cid fid = .fail .alreadyAssigned ↔
      hasDuplicate fl (getDaySchedule st cid (dateOf fl.departureTime)) = true := by
  rw [evaluate_eq_lift hc hl hf]
  constructor
  · intro h
    by_contra hd
    have hd' : hasDuplicate fl (getDaySchedule st cid (dateOf fl.departureTime)) = false := by
      simpa using hd
    have hner := @evalRules_not_dup st fl crew.role _ hd'
    cases hres : evalRules st fl crew.role (getDaySchedule st cid (dateOf fl.departureTime)) with
    | pass b => rw [hres] at h; simp at h
    | fail rs =>
      rw [hres] at h
      simp only [Decision.fail.injEq] at h
      subst h
      exact hner hres
  · intro hdup
    rw [evalRules_duplicate hdup]

/-! ### Buffer-conflict search lemmas -/

theorem firstBufferConflict_none {cand : Flight} {sched : List Assignment}
    (h : ∀ a ∈ sched, minBuffer ≤ gapTo cand a) :
    firstBufferConflict cand sched = none := by
  unfold firstBufferConflict
  rw [List.find?_eq_none]
  intro a ha
  simpa using Nat.not_lt.mpr (h a ha)

/-!
## Claim theorems

Each theorem settles one claim about the validation engine (C1–C8, modelled
from the spec) or the frontend sources (C9, C10).
-/

/-- Claim C1: the number of a crew member's assignments on any calendar day
never exceeds 2 after any sequence of commits (from any state already
within the cap), and when a crew member's day schedule already contains 2
assignments, evaluating any further candidate flight of that day fails
with the daily-limit reason, for a crew member of any role and
irrespective of the candidate's buffer or sequence properties. -/
theorem claim_C1 :
    (∀ (st0 : State) (cmds : List (Nat × Nat)), DailyCapInv st0 →
        DailyCapInv (runCommits st0 cmds)) ∧
    (∀ (st : State) (cid fid : Nat) (crew : CrewMember) (fl : Flight),
        findCrew st cid = some crew → crew.isOnLeave = false →
        findFlight st fid = some fl →
        (getDaySchedule st cid (dateOf fl.departureTime)).length = 2 →
        hasDuplicate fl (getDaySchedule st cid (dateOf fl.departureTime)) = false →
        evaluate st cid fid = .fail .dailyLimit) := by
  constructor
  · intro st0 cmds h0
    exact runCommits_preserves (P := DailyCapInv)
      (fun st c f h => commit_preserves_dailyCap h c f) cmds st0 h0
  · intro st cid fid crew fl hc hl hf hlen hdup
    rw [evaluate_eq_lift hc hl hf, evalRules_dailyLimit hdup hlen]

theorem claim_C1_witness :
    dayCount (runCommits wStateEmpty [(1, 10), (1, 11)]) 1 0 ≤ 2 ∧
    evaluate wStateFull 1 12 = .fail .dailyLimit := by
  constructor
  · exact claim_C1.1 wStateEmpty [(1, 10), (1, 11)]
      (fun cid day => by simp [dayCount, getDaySchedule, wStateEmpty]) 1 0
  · exact claim_C1.2 wStateFull 1 12 wCrewPilot wFlightThird (by decide) (by decide)
      (by decide) (by decide) (by decide)

/-- Claim C2: when the gap between the candidate's adjacent edge and some
existing same-day assignment's adjacent edge is below the 3-hour buffer
(and no earlier rule fires), evaluation fails with the insufficient-buffer
reason identifying an offending flight; and two same-day flights departing
09:00 (540) and 11:00 (660) always produce such a sub-buffer gap. -/
theorem claim_C2 :
    (∀ (st : State) (cid fid : Nat) (crew : CrewMember) (fl : Flight),
        findCrew st cid = some crew → crew.isOnLeave = false →
        findFlight st fid = some fl →
        hasDuplicate fl (getDaySchedule st cid (dateOf fl.departureTime)) = false →
        (getDaySchedule st cid (dateOf fl.departureTime)).length ≠ 2 →
        (∃ a ∈ getDaySchedule st cid (dateOf fl.departureTime), gapTo fl a < minBuffer) →
        ∃ a ∈ getDaySchedule st cid (dateOf fl.departureTime),
          gapTo fl a < minBuffer ∧
            evaluate st cid fid = .fail (.insufficientBuffer a.flightNumber)) ∧
    (∀ (fl : Flight) (ex : Assignment),
        ex.departureTime = 540 → ex.departureTime ≤ ex.arrivalTime →
        fl.departureTime = 660 → fl.departureTime ≤ fl.arrivalTime →
        dateOf ex.departureTime = dateOf fl.departureTime ∧ gapTo fl ex < minBuffer) := by
  constructor
  · intro st cid fid crew fl hc hl hf hdup hlen hex
    have hsome : (List.find? (fun a => gapTo fl a < minBuffer)
        (getDaySchedule st cid (dateOf fl.departureTime))).isSome = true := by
      rw [List.find?_isSome]
      obtain ⟨a, ha, hg⟩ := hex
      exact ⟨a, ha, by simpa using hg⟩
    obtain ⟨a, ha⟩ := Option.isSome_iff_exists.mp hsome
    have hfb : firstBufferConflict fl (getDaySchedule st cid (dateOf fl.departureTime))
        = some a := by
      unfold firstBufferConflict
      exact ha
    refine ⟨a, List.mem_of_find?_eq_some ha, by simpa using List.find?_some ha, ?_⟩
    rw [evaluate_eq_lift hc hl hf, evalRules_buffer hdup hlen hfb]
  · intro fl ex h1 h2 h3 h4
    constructor
    · rw [h1, h3]
      decide
    · unfold gapTo minBuffer
      split
      · omega
      · split
        · omega
        · omega

theorem claim_C2_witness :
    evaluate wStateBuffer 1 15 = .fail (.insufficientBuffer "F1s") ∧
    (dateOf (snapshot 1 wFlightShort).departureTime = dateOf wFlightEleven.departureTime ∧
      gapTo wFlightEleven (snapshot 1 wFlightShort) < minBuffer) := by
  constructor
  · obtain ⟨a, ha, hg, heval⟩ := claim_C2.1 wStateBuffer 1 15 wCrewPilot wFlightEleven
      (by decide) (by decide) (by decide) (by decide) (by decide)
      ⟨snapshot 1 wFlightShort, by decide, by decide⟩
    have hs : getDaySchedule wStateBuffer 1 (dateOf wFlightEleven.departureTime)
        = [snapshot 1 wFlightShort] := by decide
    rw [hs] at ha
    have ha' : a = snapshot 1 wFlightShort := by simpa using ha
    subst ha'
    exact heval
  · exact claim_C2.2 wFlightEleven (snapshot 1 wFlightShort)
      (by decide) (by decide) (by decide) (by decide)

/-- Claim C3: with exactly one existing same-day assignment (and no earlier
rule firing), any ordering of the existing and candidate flights by time
other than departure-then-arrival makes evaluation fail with the
invalid-sequence reason — covering arrival-then-arrival,
departure-then-departure and arrival-then-departure. -/
theorem claim_C3 :
    ∀ (st : State) (cid fid : Nat) (crew : CrewMember) (fl : Flight) (ex : Assignment),
      findCrew st cid = some crew → crew.isOnLeave = false →
      findFlight st fid = some fl →
      getDaySchedule st cid (dateOf fl.departureTime) = [ex] →
      hasDuplicate fl [ex] = false →
      minBuffer ≤ gapTo fl ex →
      ((ex.departureTime ≤ fl.departureTime →
          ¬(ex.direction = .departure ∧ fl.direction = .arrival) →
          evaluate st cid fid = .fail .invalidSequence) ∧
       (fl.departureTime < ex.departureTime →
          ¬(fl.direction = .departure ∧ ex.direction = .arrival) →
          evaluate st cid fid = .fail .invalidSequence)) := by
  intro st cid fid crew fl ex hc hl hf hs hdup hbuf
  have hfb : firstBufferConflict fl [ex] = none := by
    refine firstBufferConflict_none ?_
    intro a ha
    rw [List.mem_singleton] at ha
    rw [ha]
    exact hbuf
  constructor
  · intro hord hbad
    have hseq : sequenceOk fl ex = false := by
      unfold sequenceOk
      rw [if_pos hord]
      cases hd1 : ex.direction <;> cases hd2 : fl.direction <;> simp_all
    rw [evaluate_eq_lift hc hl hf, hs, evalRules_invalidSeq hdup hfb hseq]
  · intro hord hbad
    have hseq : sequenceOk fl ex = false := by
      unfold sequenceOk
      rw [if_neg (Nat.not_le.mpr hord)]
      cases hd1 : ex.direction <;> cases hd2 : fl.direction <;> simp_all
    rw [evaluate_eq_lift hc hl hf, hs, evalRules_invalidSeq hdup hfb hseq]

theorem claim_C3_witness :
    evaluate wStateSeq 1 12 = .fail .invalidSequence := by
  exact (claim_C3 wStateSeq 1 12 wCrewPilot wFlightThird (snapshot 1 wFlightOut)
    (by decide) (by decide) (by decide) (by decide) (by decide) (by decide)).1
    (by decide) (by decide)

/-- Claim C4: for every departure-then-arrival pair passing the sequence
check — whether the existing assignment is the earlier departure and the
candidate the later arrival, or the candidate is the earlier departure and
the existing assignment the later arrival — a return flight whose origin
differs from the outbound's destination fails with the route-mismatch
reason, while a matching origin (with the crew-size rule also passing)
makes evaluation pass. -/
theorem claim_C4 :
    (∀ (st : State) (cid fid : Nat) (crew : CrewMember) (fl : Flight) (ex : Assignment),
      findCrew st cid = some crew → crew.isOnLeave = false →
      findFlight st fid = some fl →
      getDaySchedule st cid (dateOf fl.departureTime) = [ex] →
      hasDuplicate fl [ex] = false →
      minBuffer ≤ gapTo fl ex →
      ex.departureTime ≤ fl.departureTime →
      ex.direction = .departure → fl.direction = .arrival →
      ((fl.origin ≠ ex.destination → evaluate st cid fid = .fail .routeMismatch) ∧
       (fl.origin = ex.destination →
          sameRoleCount st fl.id crew.role < roleCap crew.role →
          evaluate st cid fid = .pass (minGapInfo fl [ex])))) ∧
    (∀ (st : State) (cid fid : Nat) (crew : CrewMember) (fl : Flight) (ex : Assignment),
      findCrew st cid = some crew → crew.isOnLeave = false →
      findFlight st fid = some fl →
      getDaySchedule st cid (dateOf fl.departureTime) = [ex] →
      hasDuplicate fl [ex] = false →
      minBuffer ≤ gapTo fl ex →
      fl.departureTime < ex.departureTime →
      fl.direction = .departure → ex.direction = .arrival →
      ((ex.origin ≠ fl.destination → evaluate st cid fid = .fail .routeMismatch) ∧
       (ex.origin = fl.destination →
          sameRoleCount st fl.id crew.role < roleCap crew.role →
          evaluate st cid fid = .pass (minGapInfo fl [ex])))) := by
  constructor
  · intro st cid fid crew fl ex hc hl hf hs hdup hbuf hord hd1 hd2
    have hfb : firstBufferConflict fl [ex] = none := by
      refine firstBufferConflict_none ?_
      intro a ha
      rw [List.mem_singleton] at ha
      rw [ha]
      exact hbuf
    have hseq : sequenceOk fl ex = true := by
      unfold sequenceOk
      rw [if_pos hord]
      simp [hd1, hd2]
    constructor
    · intro hne
      have hcont : continuityOk fl ex = false := by
        unfold continuityOk
        rw [if_pos hord]
        simpa using hne
      rw [evaluate_eq_lift hc hl hf, hs, evalRules_routeMismatch hdup hfb hseq hcont]
    · intro heq hcap
      have hcont : continuityOk fl ex = true := by
        unfold continuityOk
        rw [if_pos hord]
        simpa using heq
      rw [evaluate_eq_lift hc hl hf, hs, evalRules_pass_single hdup hfb hseq hcont hcap]
  · intro st cid fid crew fl ex hc hl hf hs hdup hbuf hord hd1 hd2
    have hord' : ¬ ex.departureTime ≤ fl.departureTime := Nat.not_le.mpr hord
    have hfb : firstBufferConflict fl [ex] = none := by
      refine firstBufferConflict_none ?_
      intro a ha
      rw [List.mem_singleton] at ha
      rw [ha]
      exact hbuf
    have hseq : sequenceOk fl ex = true := by
      unfold sequenceOk
      rw [if_neg hord']
      simp [hd1, hd2]
    constructor
    · intro hne
      have hcont : continuityOk fl ex = false := by
        unfold continuityOk
        rw [if_neg hord']
        simpa using hne
      rw [evaluate_eq_lift hc hl hf, hs, evalRules_routeMismatch hdup hfb hseq hcont]
    · intro heq hcap
      have hcont : continuityOk fl ex = true := by
        unfold continuityOk
        rw [if_neg hord']
        simpa using heq
      rw [evaluate_eq_lift hc hl hf, hs, evalRules_pass_single hdup hfb hseq hcont hcap]

theorem claim_C4_witness :
    evaluate wStateC 1 13 = .fail .routeMismatch ∧
    evaluate wStateB 1 11 = .pass (minGapInfo wFlightRet [snapshot 1 wFlightOut]) ∧
    evaluate wStateC2 1 16 = .fail .routeMismatch ∧
    evaluate wStateB2 1 10 = .pass (minGapInfo wFlightOut [snapshot 1 wFlightRet]) := by
  refine ⟨?_, ?_, ?_, ?_⟩
  · exact (claim_C4.1 wStateC 1 13 wCrewPilot wFlightRetY (snapshot 1 wFlightOut)
      (by decide) (by decide) (by decide) (by decide) (by decide) (by decide)
      (by decide) (by decide) (by decide)).1 (by decide)
  · exact (claim_C4.1 wStateB 1 11 wCrewPilot wFlightRet (snapshot 1 wFlightOut)
      (by decide) (by decide) (by decide) (by decide) (by decide) (by decide)
      (by decide) (by decide) (by decide)).2 (by decide) (by decide)
  · exact (claim_C4.2 wStateC2 1 16 wCrewPilot wFlightOutCdg (snapshot 1 wFlightRet)
      (by decide) (by decide) (by decide) (by decide) (by decide) (by decide)
      (by decide) (by decide) (by decide)).1 (by decide)
  · exact (claim_C4.2 wStateB2 1 10 wCrewPilot wFlightOut (snapshot 1 wFlightRet)
      (by decide) (by decide) (by decide) (by decide) (by decide) (by decide)
      (by decide) (by decide) (by decide)).2 (by decide) (by decide)

/-- Claim C5: after any sequence of commits from a state within the caps,
every flight has at most 2 assigned pilots and at most 4 assigned flight
attendants; and with an empty day schedule, a candidate of a role at or
over its cap on the flight fails with the crew-limit reason while a
candidate of a role under its cap passes. -/
theorem claim_C5 :
    (∀ (st0 : State) (cmds : List (Nat × Nat)), RoleCapInv st0 →
        ∀ fid, sameRoleCount (runCommits st0 cmds) fid .pilot ≤ 2 ∧
          sameRoleCount (runCommits st0 cmds) fid .flightAttendant ≤ 4) ∧
    (∀ (st : State) (cid fid : Nat) (crew : CrewMember) (fl : Flight),
        findCrew st cid = some crew → crew.isOnLeave = false →
        findFlight st fid = some fl →
        getDaySchedule st cid (dateOf fl.departureTime) = [] →
        ((roleCap crew.role ≤ sameRoleCount st fl.id crew.role →
            evaluate st cid fid = .fail .crewLimit) ∧
         (sameRoleCount st fl.id crew.role < roleCap crew.role →
            evaluate st cid fid = .pass none))) := by
  constructor
  · intro st0 cmds h0 fid
    have hinv := runCommits_preserves (P := RoleCapInv)
      (fun st c f h => commit_preserves_roleCap h c f) cmds st0 h0
    exact ⟨hinv fid .pilot, hinv fid .flightAttendant⟩
  · intro st cid fid crew fl hc hl hf hs
    constructor
    · intro hcap
      rw [evaluate_eq_lift hc hl hf, hs, evalRules_empty_crewLimit hcap]
    · intro hcap
      rw [evaluate_eq_lift hc hl hf, hs, evalRules_empty_pass hcap]

theorem claim_C5_witness :
    sameRoleCount (runCommits wStateOne [(1, 10)]) 10 .pilot ≤ 2 ∧
    evaluate wStateE 3 10 = .fail .crewLimit ∧
    evaluate wStateE 4 10 = .pass none := by
  refine ⟨(claim_C5.1 wStateOne [(1, 10)]
    (fun fid r => by simp [sameRoleCount, wStateOne]) 10).1, ?_, ?_⟩
  · exact (claim_C5.2 wStateE 3 10 wCrewPilot3 wFlightOut
      (by decide) (by decide) (by decide) (by decide)).1 (by decide)
  · exact (claim_C5.2 wStateE 4 10 wCrewAttendant wFlightOut
      (by decide) (by decide) (by decide) (by decide)).2 (by decide)

/-- Claim C6: evaluation fails with the already-assigned reason exactly when
the candidate flight is present in the crew member's day schedule; at most
one assignment per (crew, flight) pair survives any sequence of commits;
and immediately re-committing a pair after a successful commit is rejected
by the duplicate check. -/
theorem claim_C6 :
    (∀ (st : State) (cid fid : Nat) (crew : CrewMember) (fl : Flight),
        findCrew st cid = some crew → crew.isOnLeave = false →
        findFlight st fid = some fl →
        (evaluate st cid fid = .fail .alreadyAssigned ↔
          hasDuplicate fl (getDaySchedule st cid (dateOf fl.departureTime)) = true)) ∧
    (∀ (st0 : State) (cmds : List (Nat × Nat)),
        PairInv st0 → SnapInv st0 → PairInv (runCommits st0 cmds)) ∧
    (∀ (st : State) (cid fid : Nat) (a : Assignment) (st' : State),
        commit st cid fid = (.committed a, st') →
        commit st' cid fid = (.rejected (.fail .alreadyAssigned), st')) := by
  refine ⟨?_, ?_, ?_⟩
  · intro st cid fid crew fl hc hl hf
    exact evaluate_dup_iff hc hl hf
  · intro st0 cmds hp hs
    have := runCommits_preserves
      (P := fun st => PairInv st ∧ SnapInv st)
      (fun st c f h => ⟨commit_preserves_pair h.1 h.2 c f, commit_preserves_snap h.2 c f⟩)
      cmds st0 ⟨hp, hs⟩
    exact this.1
  · intro st cid fid a st' h
    exact (commit_then_duplicate h).2

theorem claim_C6_witness :
    (evaluate wStateOneDone 1 10 = .fail .alreadyAssigned ↔
      hasDuplicate wFlightOut (getDaySchedule wStateOneDone 1 (dateOf wFlightOut.departureTime)) = true) ∧
    ((runCommits wStateOne [(1, 10), (1, 10)]).assignments.filter
      (fun a => a.crewId == 1 && a.flightId == 10)).length ≤ 1 ∧
    commit wStateOneDone 1 10 = (.rejected (.fail .alreadyAssigned), wStateOneDone) := by
  refine ⟨?_, ?_, ?_⟩
  · exact claim_C6.1 wStateOneDone 1 10 wCrewPilot wFlightOut
      (by decide) (by decide) (by decide)
  · exact claim_C6.2.1 wStateOne [(1, 10), (1, 10)]
      (fun c f => by simp [wStateOne])
      (fun a ha => absurd ha (by simp [wStateOne])) 1 10
  · exact claim_C6.2.2 wStateOne 1 10 (snapshot 1 wFlightOut) wStateOneDone (by decide)

/-- Claim C7: commit re-runs the evaluator immediately before writing — on
any non-pass decision it rejects with that very decision and leaves the
state unchanged, and on a pass it persists exactly one new assignment
snapshotting the flight's current route and time data and returns it. -/
theorem claim_C7 :
    (∀ (st : State) (cid fid : Nat) (b : Option Nat),
        evaluate st cid fid = .pass b →
        ∃ fl, findFlight st fid = some fl ∧
          commit st cid fid =
            (.committed (snapshot cid fl),
             { st with assignments := st.assignments ++ [snapshot cid fl] })) ∧
    (∀ (st : State) (cid fid : Nat) (d : Decision),
        evaluate st cid fid = d → (∀ b, d ≠ .pass b) →
        commit st cid fid = (.rejected d, st)) := by
  constructor
  · intro st cid fid b h
    exact commit_of_pass h
  · intro st cid fid d h hnp
    exact commit_of_not_pass h hnp

theorem claim_C7_witness :
    commit wStateOne 1 10 = (.committed (snapshot 1 wFlightOut), wStateOneDone) ∧
    commit wStateFull 1 12 = (.rejected (.fail .dailyLimit), wStateFull) := by
  constructor
  · obtain ⟨fl, hf, hcommit⟩ := claim_C7.1 wStateOne 1 10 none (by decide)
    have hconc : findFlight wStateOne 10 = some wFlightOut := by decide
    have hfl : fl = wFlightOut := Option.some.inj (hf.symm.trans hconc)
    subst hfl
    rw [hcommit]
    decide
  · exact claim_C7.2 wStateFull 1 12 (.fail .dailyLimit) (by decide) (by intro b; simp)

/-- Claim C8: availability checking is a pure read — repeating it any number
of times with no intervening commit returns the same decision every time
and leaves the state exactly as it was. -/
theorem claim_C8 (st : State) (cid fid : Nat) (n : Nat) :
    repeatCheck st cid fid n = (List.replicate n (evaluate st cid fid), st) := by
  induction n with
  | zero => rfl
  | succ k ih => simp [repeatCheck, checkAvailability, ih, List.replicate_succ]

/-- Claim C9 counterexample: the frontend role union admits the string
`Flight attendant`, not `FlightAttendant` — the claim's literal value set
is wrong for the sources. -/
theorem claim_C9_counterexample :
    isValidCrewRole "FlightAttendant" = false ∧
    isValidCrewRole "Flight attendant" = true ∧
    roleValue .flightAttendant = "Flight attendant" := by
  exact ⟨by decide, by decide, rfl⟩

/-- Claim C9 (amended): every CrewMember role value is exactly one of the
two strings `Pilot` or `Flight attendant`; both engine roles map onto
these values, and the crew creation/edit forms offer exactly them. -/
theorem claim_C9 :
    (∀ s : String, isValidCrewRole s = true ↔ s = "Pilot" ∨ s = "Flight attendant") ∧
    (∀ r : Role, isValidCrewRole (roleValue r) = true) ∧
    crewFormRoleOptions = crewRoleValues := by
  refine ⟨?_, ?_, rfl⟩
  · intro s
    simp [isValidCrewRole, crewRoleValues]
  · intro r
    cases r <;> decide

/-- Claim C10: on a successful HTTP response whose parsed JSON body is not
an array (null, object, …), each list-returning ApiService method returns
the empty array rather than throwing or propagating a non-array value. -/
theorem claim_C10 (r : ApiResponse) (j : Json) (hok : r.ok = true)
    (hb : r.body = some j) (hna : isArray j = false) :
    getCrewMembers r = .ok [] ∧ getFlights r = .ok [] ∧ getSchedules r = .ok [] := by
  unfold getCrewMembers getFlights getSchedules handleResponse
  rw [hok, hb]
  simp [hna]

theorem claim_C10_witness :
    getCrewMembers wResponseObj = .ok [] ∧ getFlights wResponseObj = .ok [] ∧
      getSchedules wResponseObj = .ok [] ∧ getFlights wResponseNull = .ok [] := by
  have h1 := claim_C10 wResponseObj (.jobj [("message", .jstr "No crew found")]) rfl rfl rfl
  have h2 := claim_C10 wResponseNull .jnull rfl rfl rfl
  exact ⟨h1.1, h1.2.1, h1.2.2, h2.2.1⟩

end CrewSchedule
